import Mathlib

/-!
Shallow embedding of the bticket-download-report history/reconciliation engine
(`src/history.py`, `src/main.py`, `src/telegram.py`) and proofs about it.

Conventions of the embedding:
* Python `date` objects become the structure `PDate` (year/month/day as `Nat`);
  Python compares dates lexicographically on (year, month, day), which for
  valid dates coincides with comparison of `toOrdinal` (the proleptic Gregorian
  ordinal, exactly `date.toordinal`), used here uniformly.
* CSV rows carry their numeric fields already converted (`int(...)` in the
  source); dates and platforms stay strings exactly as stored.
* `None`-able Python values become `Option`; Python dicts with the fixed key
  sets used by the program become structures with `Option` fields
  (`dict.get(k, 0)` becomes `(·).getD 0`).
* File existence / IO is factored out: functions take the current file
  contents (or `none` for an absent file) and return the new contents.
-/

/-- A calendar date, as Python's `datetime.date` (year, month, day). -/
structure PDate where
  year : Nat
  month : Nat
  day : Nat
deriving DecidableEq, Repr

/-- Gregorian leap-year test (as Python `calendar.isleap`). -/
def isLeap (y : Nat) : Bool :=
  (y % 4 == 0 && y % 100 != 0) || y % 400 == 0

/-- Number of days in a month of a given year. -/
def daysInMonth (y m : Nat) : Nat :=
  if m = 2 then (if isLeap y then 29 else 28)
  else if m = 4 ∨ m = 6 ∨ m = 9 ∨ m = 11 then 30
  else 31

/-- Days in year `y` strictly before month `m`. -/
def daysBeforeMonth (y m : Nat) : Nat :=
  (List.range (m - 1)).foldl (fun a i => a + daysInMonth y (i + 1)) 0

/-- Proleptic Gregorian ordinal of a date, exactly Python's `date.toordinal`
(January 1 of year 1 is day 1). -/
def toOrdinal (d : PDate) : Nat :=
  365 * (d.year - 1) + (d.year - 1) / 4 - (d.year - 1) / 100 + (d.year - 1) / 400
    + daysBeforeMonth d.year d.month + d.day

/-- A structurally valid calendar date. -/
def validDate (d : PDate) : Prop :=
  1 ≤ d.year ∧ 1 ≤ d.month ∧ d.month ≤ 12 ∧ 1 ≤ d.day ∧ d.day ≤ daysInMonth d.year d.month

instance (d : PDate) : Decidable (validDate d) := by
  unfold validDate; infer_instance

/-- Digit characters. -/
def isDigitCh (c : Char) : Bool := '0' ≤ c && c ≤ '9'

/-- Whitespace as recognised by Python's `str.strip()` / the `\s` class
(ASCII fragment, which is all the program's inputs contain). -/
def isSpaceCh (c : Char) : Bool :=
  c = ' ' || c = '\t' || c = '\n' || c = '\r' || c = '\x0b' || c = '\x0c'

/-- Python `str.strip()`. -/
def pyStrip (s : String) : String :=
  ⟨((s.data.dropWhile isSpaceCh).reverse.dropWhile isSpaceCh).reverse⟩

/-- Python `s.split("(")[0]`: everything before the first `'('`. -/
def splitParen (s : String) : String :=
  ⟨s.data.takeWhile (fun c => !(c = '('))⟩

/-- Numeric value of a digit list (most significant first). -/
def digitsToNat (cs : List Char) : Nat :=
  cs.foldl (fun a c => a * 10 + (c.toNat - '0'.toNat)) 0

/-- The `%b` month abbreviations (C locale), matched case-insensitively as in
Python's `_strptime`. -/
def monthAbbrevs : List (String × Nat) :=
  [("jan", 1), ("feb", 2), ("mar", 3), ("apr", 4), ("may", 5), ("jun", 6),
   ("jul", 7), ("aug", 8), ("sep", 9), ("oct", 10), ("nov", 11), ("dec", 12)]

/-- Python `datetime.strptime(s, "%b %d")`, returning (month, day).

Mirrors `_strptime`: the month is a three-letter abbreviation matched
case-insensitively, the literal space in the format matches one or more
whitespace characters, `%d` matches one or two digits with value 1..31
(`"00"` is rejected), the whole string must be consumed, and the day is
validated against the month in the default year 1900 (so `"Feb 29"` fails). -/
def parseMonthDay (s : String) : Option (Nat × Nat) :=
  match s.data with
  | m1 :: m2 :: m3 :: rest =>
    match monthAbbrevs.find? (fun e => e.1.data = [m1.toLower, m2.toLower, m3.toLower]) with
    | none => none
    | some (_, month) =>
      let afterSpace := rest.dropWhile isSpaceCh
      if rest.takeWhile isSpaceCh = [] then none
      else
        let digits := afterSpace.takeWhile isDigitCh
        if afterSpace.dropWhile isDigitCh ≠ [] then none
        else if digits.length = 0 ∨ 2 < digits.length then none
        else
          let day := digitsToNat digits
          if 1 ≤ day ∧ day ≤ 31 ∧ day ≤ daysInMonth 1900 month then some (month, day)
          else none
  | _ => none

/-- Python `date.fromisoformat` on the canonical `YYYY-MM-DD` form (the only form the
program ever stores or reads back). -/
def parseIso (s : String) : Option PDate :=
  match s.data with
  | [y1, y2, y3, y4, h1, mo1, mo2, h2, d1, d2] =>
    if h1 = '-' ∧ h2 = '-'
        ∧ [y1, y2, y3, y4, mo1, mo2, d1, d2].all isDigitCh then
      if 1 ≤ digitsToNat [y1, y2, y3, y4]
          ∧ 1 ≤ digitsToNat [mo1, mo2] ∧ digitsToNat [mo1, mo2] ≤ 12
          ∧ 1 ≤ digitsToNat [d1, d2]
          ∧ digitsToNat [d1, d2]
              ≤ daysInMonth (digitsToNat [y1, y2, y3, y4]) (digitsToNat [mo1, mo2]) then
        some ⟨digitsToNat [y1, y2, y3, y4], digitsToNat [mo1, mo2], digitsToNat [d1, d2]⟩
      else none
    else none
  | _ => none

/-- Zero-pad a natural to two digits. -/
def pad2 (n : Nat) : String :=
  if n < 10 then "0" ++ toString n else toString n

/-- Zero-pad a natural to four digits. -/
def pad4 (n : Nat) : String :=
  if n < 10 then "000" ++ toString n
  else if n < 100 then "00" ++ toString n
  else if n < 1000 then "0" ++ toString n
  else toString n

/-- Python `date.isoformat()`: `YYYY-MM-DD`. -/
def toIso (d : PDate) : String :=
  pad4 d.year ++ "-" ++ pad2 d.month ++ "-" ++ pad2 d.day

/-! ## Store results and the two short-date parsers -/

/-- The `StoreResult` record from `src/stores/base.py`. -/
structure StoreResult where
  store_name : String
  daily_downloads : Option Int := none
  total_downloads : Option Int := none
  data_date : Option String := none
  error_message : Option String := none
deriving DecidableEq, Repr

/-- The `PLATFORM_MAP` dict from `src/history.py`: store display name to platform token. -/
def PLATFORM_MAP (name : String) : Option String :=
  if name = "App Store" then some "appstore"
  else if name = "Google Play" then some "googleplay"
  else none

/-- Embedding of `_parse_data_date` from `src/history.py`.

Converts a store data date (e.g. `"Feb 11"`) to `YYYY-MM-DD`, taking the
current date as an explicit parameter (`date.today()` in the source). Assumes
the current year; if the parsed date is strictly in the future, falls back to
the previous year. If `"%b %d"` parsing fails, tries `YYYY-MM-DD` directly.
Returns `none` for the empty string or an unparseable string. -/
def parse_data_date (today : PDate) (s : String) : Option String :=
  if s = "" then none
  else
    match parseMonthDay (pyStrip s) with
    | some (m, d) =>
      let parsed : PDate := ⟨today.year, m, d⟩
      let parsed := if toOrdinal parsed > toOrdinal today then ⟨today.year - 1, m, d⟩ else parsed
      some (toIso parsed)
    | none => (parseIso (pyStrip s)).map toIso

/-- Embedding of `_parse_short_date` from `src/main.py`.

Parses `"Feb 14"` to a date, first stripping a suffix like `" (delayed)"`.
Assumes the current year; if the resolved date is more than 30 days in the
future, it was probably last year, so the year is decremented. The argument is
`Option String` because call sites pass a possibly-`None` `data_date`;
`if not s: return None` maps `none` and `""` to `none`. -/
def parse_short_date (today : PDate) (s : Option String) : Option PDate :=
  match s with
  | none => none
  | some s =>
    if s = "" then none
    else
      let clean := pyStrip (splitParen s)
      match parseMonthDay clean with
      | some (m, d) =>
        let result : PDate := ⟨today.year, m, d⟩
        some (if toOrdinal result > toOrdinal today + 30 then ⟨today.year - 1, m, d⟩ else result)
      | none => none

/-- Embedding of `_is_newer_date` from `src/main.py`: `True` iff the fetched `data_date` is
strictly after the last recorded date. A falsy `last` (absent or empty) is
always "newer"; if either label fails to parse, falls back to label
inequality to avoid silent drops. -/
def is_newer_date (today : PDate) (fetched last : Option String) : Bool :=
  if last.getD "" = "" then true
  else
    match parse_short_date today fetched, parse_short_date today last with
    | some f, some l => toOrdinal f > toOrdinal l
    | _, _ => fetched != last

/-! ## The ledger (CSV history) -/

/-- One row of `data/downloads.csv`. The numeric columns are stored as decimal
strings in the file and converted with `int(...)` on read; the embedding keeps
them as integers. `ingestion_date` is the `date` column. -/
structure Row where
  ingestion_date : String
  report_date : String
  platform : String
  daily_downloads : Int
  cumulative_total : Int
deriving DecidableEq, Repr

/-- The `(report_date, platform)` identity keys of a table
(`_load_existing_keys` in `src/history.py`). -/
def keysOf (table : List Row) : List (String × String) :=
  table.map (fun r => (r.report_date, r.platform))

/-- The cumulative-totals cache (`cumulative_totals.json`), a dict with keys
`apple`, `google_play`, `apple_last_date`, `google_play_last_date` (the
`last_updated` timestamp carries no program logic and is omitted). `Option`
fields model possibly-absent keys, read with `dict.get`. -/
structure CumCache where
  apple : Option Int := none
  google_play : Option Int := none
  apple_last_date : Option String := none
  google_play_last_date : Option String := none
deriving DecidableEq, Repr

/-- The guarded call `_parse_data_date(result.data_date) if result.data_date
else None` in `src/history.py` (both `None` and `""` are falsy). -/
def dataDateOf (today : PDate) (o : Option String) : Option String :=
  match o with
  | none => none
  | some s => if s = "" then none else parse_data_date today s

/-- The row-building loop of `save_to_history` (`src/history.py`): for each
result, skip it if `daily_downloads` is absent, the store name is unmapped,
the data date does not parse, or the `(report_date, platform)` key already
exists; otherwise emit a row whose `cumulative_total` is the value stored in
the caller-supplied cumulative dict under `"apple"`/`"google_play"`
(default 0). -/
def rows_to_write (today : PDate) (cumulative : CumCache)
    (existing : List (String × String)) : List StoreResult → List Row
  | [] => []
  | res :: rest =>
    match res.daily_downloads with
    | none => rows_to_write today cumulative existing rest
    | some dd =>
      match PLATFORM_MAP res.store_name with
      | none => rows_to_write today cumulative existing rest
      | some platform =>
        match dataDateOf today res.data_date with
        | none => rows_to_write today cumulative existing rest
        | some report_date =>
          if (report_date, platform) ∈ existing then
            rows_to_write today cumulative existing rest
          else
            let cum := if platform = "appstore" then cumulative.apple.getD 0
                       else cumulative.google_play.getD 0
            ⟨toIso today, report_date, platform, dd, cum⟩
              :: rows_to_write today cumulative existing rest

/-- Embedding of `save_to_history` from `src/history.py`: append the new rows to the CSV
(existing keys are loaded once, before the loop). -/
def save_to_history (today : PDate) (results : List StoreResult)
    (cumulative : CumCache) (table : List Row) : List Row :=
  table ++ rows_to_write today cumulative (keysOf table) results

/-! ## Retroactive corrections (`correct_history_rows`, `src/history.py`) -/

/-- The correction-map building loop of `correct_history_rows`: dict insertion
order, keyed by `(report_date, platform)`. Results lacking a daily value, an
unmapped store name, or a parseable data date are skipped. -/
def buildCorrectionMap (today : PDate) : List StoreResult → List ((String × String) × Int)
  | [] => []
  | res :: rest =>
    match res.daily_downloads with
    | none => buildCorrectionMap today rest
    | some dd =>
      match PLATFORM_MAP res.store_name with
      | none => buildCorrectionMap today rest
      | some platform =>
        match dataDateOf today res.data_date with
        | none => buildCorrectionMap today rest
        | some report_date => ((report_date, platform), dd) :: buildCorrectionMap today rest

/-- Python dict lookup over the insertion list: the last assignment to a key
wins. -/
def cmLookup (cm : List ((String × String) × Int)) (k : String × String) : Option Int :=
  ((cm.filter (fun e => e.1 == k)).getLast?).map (fun e => e.2)

/-- The "Apply corrections" loop body of `correct_history_rows`: where a row's
key matches a correction and the value differs, overwrite `daily_downloads`. -/
def applyCorr (cm : List ((String × String) × Int)) (r : Row) : Row :=
  match cmLookup cm (r.report_date, r.platform) with
  | some nd => if r.daily_downloads ≠ nd then { r with daily_downloads := nd } else r
  | none => r

/-- Whether the correction loop sets `changed` for this row: its key is in the
map with a value different from the stored one. -/
def rowChanged (cm : List ((String × String) × Int)) (r : Row) : Bool :=
  match cmLookup cm (r.report_date, r.platform) with
  | some nd => nd != r.daily_downloads
  | none => false

/-- The `platform_bases` pass of `correct_history_rows`: for the first row of each
platform (in file order), `cumulative_total - daily_downloads`, computed
before any correction is applied. -/
def platformBase (rows : List Row) (p : String) : Option Int :=
  (rows.find? (fun r => r.platform == p)).map (fun r => r.cumulative_total - r.daily_downloads)

/-- Point update of a per-platform running-total environment. -/
def updAcc (acc : String → Option Int) (p : String) (v : Int) : String → Option Int :=
  fun q => if q = p then some v else acc q

/-- The "Recalculate cumulative totals per platform" pass of
`correct_history_rows`.

The source groups the row dicts by platform (`platform_rows`, preserving file
order within each platform), then for each platform scans its group from
`platform_bases.get(platform, 0)` setting `cumulative_total := running +=
daily_downloads`, mutating the shared row objects, and finally rewrites the
file in the original row order. Because each group preserves the original
relative order and a scan only touches its own platform's rows, this equals a
single pass over the rows in file order that keeps one running total per
platform, seeded at the platform's base — which is what this definition does. -/
def recompute (bases : String → Int) (acc : String → Option Int) : List Row → List Row
  | [] => []
  | r :: rest =>
    let run := (acc r.platform).getD (bases r.platform) + r.daily_downloads
    { r with cumulative_total := run } :: recompute bases (updAcc acc r.platform run) rest

/-- Embedding of `correct_history_rows` from `src/history.py`.

First component: the rewritten CSV table (`some` exactly when the source
rewrites the file, i.e. the correction map is non-empty and at least one row's
value actually changed); an absent CSV file behaves like the empty table.

Second component: the function's Python return value. The source builds
`updated_totals` on the corrected path but ends without a `return` statement,
so every path returns `None`. -/
def correct_history_rows (today : PDate) (table : List Row)
    (corrections : List StoreResult) : Option (List Row) × Option (List (String × Int)) :=
  let cm := buildCorrectionMap today corrections
  if cm = [] then (none, none)
  else
    let rows' := table.map (applyCorr cm)
    let changed := table.any (rowChanged cm)
    if !changed then (none, none)
    else
      let bases := fun p => (platformBase table p).getD 0
      (some (recompute bases (fun _ => none) rows'), none)

/-- A scan that overwrites each row's `cumulative_total` with the running
prefix sum of `daily_downloads` from the given base: the specification of what
the recomputation does to the rows of one platform. -/
def scanCums (running : Int) : List Row → List Row
  | [] => []
  | r :: rest =>
    { r with cumulative_total := running + r.daily_downloads }
      :: scanCums (running + r.daily_downloads) rest

/-! ## Orchestrator (`src/main.py`) -/

/-- Embedding of `load_cumulative_totals` from `src/main.py`: read the cache file if it
exists, else the hardcoded default dict
`{"apple": 440, "google_play": 165, "apple_last_date": "Feb 16",
"google_play_last_date": "Feb 14"}`. -/
def load_cumulative_totals (cacheFile : Option CumCache) : CumCache :=
  match cacheFile with
  | some c => c
  | none => ⟨some 440, some 165, some "Feb 16", some "Feb 14"⟩

/-- Modelled from the spec: `latest_per_platform()` — "the row with the maximal
report_date per platform" (§4.1). The function `get_latest_per_platform` is
imported by `src/main.py` from `src.history` but is not present under `src/`;
`report_date` is an ISO `YYYY-MM-DD` string, on which string order is date
order. Ties (impossible given the one-row-per-key invariant) keep the later
file row. -/
def latest_per_platform (table : List Row) (p : String) : Option Row :=
  (table.filter (fun r => r.platform == p)).foldl
    (fun acc r =>
      match acc with
      | none => some r
      | some a => if a.report_date ≤ r.report_date then some r else some a)
    none

/-- The "Sync cumulative totals with CSV" block of `main` (`src/main.py`):
for each platform, adopt the ledger's latest `cumulative_total` only when it
is strictly greater than the cached value (`dict.get(key, 0)`). -/
def sync_with_csv (c : CumCache) (table : List Row) : CumCache :=
  let c1 :=
    match latest_per_platform table "appstore" with
    | some r => if r.cumulative_total > c.apple.getD 0
                then { c with apple := some r.cumulative_total } else c
    | none => c
  match latest_per_platform table "googleplay" with
  | some r => if r.cumulative_total > c1.google_play.getD 0
              then { c1 with google_play := some r.cumulative_total } else c1
  | none => c1

/-- The per-platform fetch-update block of `main` (`src/main.py`, done once for
Apple and once for Google Play): if the result has a daily value and
`_is_newer_date` accepts its data date against the stored last label, add the
daily value to the running total (`dict.get(key, 0) + dd`) and record the new
label; otherwise leave both unchanged. Returns (new total, new last label). -/
def new_day_update (today : PDate) (res : StoreResult) (total : Option Int)
    (lastLabel : Option String) : Option Int × Option String :=
  match res.daily_downloads with
  | some dd =>
    if is_newer_date today res.data_date lastLabel
    then (some (total.getD 0 + dd), res.data_date)
    else (total, lastLabel)
  | none => (total, lastLabel)

/-- The assignment `result.total_downloads = total if total > 0 else None` in `main`. -/
def set_total (res : StoreResult) (t : Int) : StoreResult :=
  { res with total_downloads := if t > 0 then some t else none }

/-- The `for key, total in corrected.items(): cumulative[key] = total` loop of
`main` (dead in practice, since `correct_history_rows` returns `None`). -/
def applyTotals (c : CumCache) : List (String × Int) → CumCache
  | [] => c
  | (k, v) :: rest =>
    applyTotals
      (if k = "apple" then { c with apple := some v }
       else if k = "google_play" then { c with google_play := some v }
       else c) rest

/-- The observable outcome of one run of `main`: the cumulative-totals cache
as last persisted, the final CSV table, and the process exit code. -/
structure RunOut where
  cache : CumCache
  table : List Row
  exitCode : Nat
deriving DecidableEq, Repr

/-- Embedding of `main` from `src/main.py`, as a pure state transformer over the two
persisted stores. Fetch results, the correction look-back fetch, the dry-run
flag and the eventual Telegram outcome are inputs; report formatting has no
effect on persistent state or the exit code beyond the send outcome and is
omitted. A successful run (or a dry run) exits 0; a failed send exits 1
(`sys.exit(1)`). -/
def main_run (today : PDate) (cacheFile : Option CumCache) (table0 : List Row)
    (apple_res google_res : StoreResult) (recent_gp : List StoreResult)
    (dry_run send_ok : Bool) : RunOut :=
  let c0 := load_cumulative_totals cacheFile
  let c1 := sync_with_csv c0 table0
  let (at_, al) := new_day_update today apple_res c1.apple c1.apple_last_date
  let c2 : CumCache := { c1 with apple := at_, apple_last_date := al }
  let apple_res := set_total apple_res (c2.apple.getD 0)
  let (gt, gl) := new_day_update today google_res c2.google_play c2.google_play_last_date
  let c3 : CumCache := { c2 with google_play := gt, google_play_last_date := gl }
  let google_res := set_total google_res (c3.google_play.getD 0)
  -- save_cumulative_totals(cumulative)  (first persist)
  let persisted := c3
  -- save_to_history(results, cumulative)  (non-fatal)
  let table1 := save_to_history today [apple_res, google_res] c3 table0
  -- correction pass, guarded by `if recent_gp:`
  let (tableOpt, corrected) :=
    if recent_gp.isEmpty then (none, none)
    else correct_history_rows today table1 recent_gp
  let table2 := tableOpt.getD table1
  let persisted :=
    match corrected with
    | some m => applyTotals c3 m  -- second persist (unreachable: `corrected` is always `none`)
    | none => persisted
  if dry_run then ⟨persisted, table2, 0⟩
  else if send_ok then ⟨persisted, table2, 0⟩
  else ⟨persisted, table2, 1⟩

/-- Embedding of `send_telegram_message` from `src/telegram.py`, over the outcomes of the
(at most two) HTTP attempts: returns (overall success, attempts made, sleep
delays in seconds). A first-attempt failure sleeps 60 seconds and retries
once; a second failure gives up with `False`. -/
def send_telegram_message (attempt1 attempt2 : Bool) : Bool × Nat × List Nat :=
  if attempt1 then (true, 1, [])
  else if attempt2 then (true, 2, [60])
  else (false, 2, [60])

/-! ## Lemmas about the correction recomputation -/

theorem applyCorr_platform (cm : List ((String × String) × Int)) (r : Row) :
    (applyCorr cm r).platform = r.platform := by
  unfold applyCorr
  cases cmLookup cm (r.report_date, r.platform) with
  | none => rfl
  | some nd => by_cases h : r.daily_downloads ≠ nd <;> simp [h]

theorem filter_map_applyCorr (cm : List ((String × String) × Int)) (p : String) :
    ∀ l : List Row,
      (l.map (applyCorr cm)).filter (fun r => r.platform == p)
        = (l.filter (fun r => r.platform == p)).map (applyCorr cm) := by
  intro l
  induction l with
  | nil => rfl
  | cons r t ih =>
    simp only [List.map_cons, List.filter_cons, applyCorr_platform]
    cases h : (r.platform == p) <;> simp [h, ih]

theorem recompute_filter (bases : String → Int) (p : String) :
    ∀ (rows : List Row) (acc : String → Option Int),
      (recompute bases acc rows).filter (fun r => r.platform == p)
        = scanCums ((acc p).getD (bases p)) (rows.filter (fun r => r.platform == p)) := by
  intro rows
  induction rows with
  | nil => intro acc; rfl
  | cons r rest ih =>
    intro acc
    by_cases hp : r.platform = p
    · subst hp
      rw [List.filter_cons_of_pos (by simp), show recompute bases acc (r :: rest)
            = { r with cumulative_total := (acc r.platform).getD (bases r.platform) + r.daily_downloads }
              :: recompute bases (updAcc acc r.platform
                  ((acc r.platform).getD (bases r.platform) + r.daily_downloads)) rest from rfl,
          List.filter_cons_of_pos (by simp), ih]
      simp [scanCums, updAcc]
    · rw [show recompute bases acc (r :: rest)
            = { r with cumulative_total := (acc r.platform).getD (bases r.platform) + r.daily_downloads }
              :: recompute bases (updAcc acc r.platform
                  ((acc r.platform).getD (bases r.platform) + r.daily_downloads)) rest from rfl,
          List.filter_cons_of_neg (by simp [hp]), List.filter_cons_of_neg (by simp [hp]), ih]
      have hacc : (updAcc acc r.platform
          ((acc r.platform).getD (bases r.platform) + r.daily_downloads)) p = acc p := by
        unfold updAcc
        rw [if_neg (fun h => hp h.symm)]
      rw [hacc]

theorem scanCums_take (j : Nat) :
    ∀ (xs : List Row) (b : Int), (scanCums b xs).take j = scanCums b (xs.take j) := by
  induction j with
  | zero => intro xs b; rfl
  | succ n ih =>
    intro xs b
    cases xs with
    | nil => rfl
    | cons x t => simp only [scanCums, List.take_succ_cons, ih]

/-- Unfolding of `correct_history_rows` with its `let`s resolved. -/
theorem correct_history_rows_eq (today : PDate) (table : List Row)
    (corrections : List StoreResult) :
    correct_history_rows today table corrections
      = (if buildCorrectionMap today corrections = [] then (none, none)
         else if !(table.any (rowChanged (buildCorrectionMap today corrections))) then (none, none)
         else (some (recompute (fun q => (platformBase table q).getD 0) (fun _ => none)
                (table.map (applyCorr (buildCorrectionMap today corrections)))), none)) := rfl

/-- A five-day one-platform ledger with consistent running totals (the
correction-recomputation scenario of the spec's testable properties). -/
def sampleTable : List Row :=
  [⟨"2026-02-02", "2026-02-01", "googleplay", 10, 10⟩,
   ⟨"2026-02-03", "2026-02-02", "googleplay", 20, 30⟩,
   ⟨"2026-02-04", "2026-02-03", "googleplay", 30, 60⟩,
   ⟨"2026-02-05", "2026-02-04", "googleplay", 40, 100⟩,
   ⟨"2026-02-06", "2026-02-05", "googleplay", 50, 150⟩]

/-- The current date for the sample scenario. -/
def sampleToday : PDate := ⟨2026, 2, 10⟩

/-- A look-back fetch reporting day 2's daily value as 25 instead of the
stored 20. -/
def sampleCorrections : List StoreResult :=
  [⟨"Google Play", some 25, none, some "2026-02-02", none⟩]

/-- The rewritten ledger: day 2's daily corrected to 25 and every running
total from day 2 on recomputed (+5), day 1 untouched. -/
def sampleCorrected : List Row :=
  [⟨"2026-02-02", "2026-02-01", "googleplay", 10, 10⟩,
   ⟨"2026-02-03", "2026-02-02", "googleplay", 25, 35⟩,
   ⟨"2026-02-04", "2026-02-03", "googleplay", 30, 65⟩,
   ⟨"2026-02-05", "2026-02-04", "googleplay", 40, 105⟩,
   ⟨"2026-02-06", "2026-02-05", "googleplay", 50, 155⟩]

/-! ## Claim theorems -/

/-- C1: whenever `correct_history_rows` actually rewrites the ledger (some
correction changed a stored `daily_downloads`), the rows of each platform in
the rewritten table are exactly the corrected rows with `cumulative_total`
recomputed as a fresh prefix sum from the platform's base (first row's
`cumulative_total - daily_downloads`, taken before mutation); and for any
prefix of a platform's rows that no correction touched, provided the original
rows were consistent prefix sums from the base, the recomputation leaves that
prefix (running totals included) untouched. -/
theorem correction_recompute_prefix_sum (today : PDate) (table : List Row)
    (corrections : List StoreResult) (p : String) (nt : List Row)
    (ret : Option (List (String × Int)))
    (h : correct_history_rows today table corrections = (some nt, ret)) :
    nt.filter (fun r => r.platform == p)
      = scanCums ((platformBase table p).getD 0)
          ((table.filter (fun r => r.platform == p)).map
            (applyCorr (buildCorrectionMap today corrections)))
    ∧ ∀ j,
        ((table.filter (fun r => r.platform == p)).map
            (applyCorr (buildCorrectionMap today corrections))).take j
          = (table.filter (fun r => r.platform == p)).take j →
        table.filter (fun r => r.platform == p)
          = scanCums ((platformBase table p).getD 0)
              (table.filter (fun r => r.platform == p)) →
        (nt.filter (fun r => r.platform == p)).take j
          = (table.filter (fun r => r.platform == p)).take j := by
  rw [correct_history_rows_eq] at h
  split_ifs at h
  · exact absurd (congrArg Prod.fst h) (by simp)
  · exact absurd (congrArg Prod.fst h) (by simp)
  · have hnt : nt = recompute (fun q => (platformBase table q).getD 0) (fun _ => none)
        (table.map (applyCorr (buildCorrectionMap today corrections))) := by
      have := congrArg Prod.fst h
      simpa using this.symm
    subst hnt
    have hf : (recompute (fun q => (platformBase table q).getD 0) (fun _ => none)
          (table.map (applyCorr (buildCorrectionMap today corrections)))).filter
            (fun r => r.platform == p)
        = scanCums ((platformBase table p).getD 0)
            ((table.filter (fun r => r.platform == p)).map
              (applyCorr (buildCorrectionMap today corrections))) := by
      rw [recompute_filter, filter_map_applyCorr]
      rfl
    refine ⟨hf, ?_⟩
    intro j hj hcons
    rw [hf, scanCums_take, hj, ← scanCums_take, ← hcons]

/-- Witness for C1: the spec's own test scenario. Days 1..5 with dailies
10,20,30,40,50; correcting day 2 to 25 rewrites the table so that the
platform's rows are the fresh prefix sums from base 0, and day 1's row
(including its running total) is untouched. -/
theorem correction_recompute_prefix_sum_witness :
    sampleCorrected.filter (fun r => r.platform == "googleplay")
      = scanCums ((platformBase sampleTable "googleplay").getD 0)
          ((sampleTable.filter (fun r => r.platform == "googleplay")).map
            (applyCorr (buildCorrectionMap sampleToday sampleCorrections)))
    ∧ (sampleCorrected.filter (fun r => r.platform == "googleplay")).take 1
      = (sampleTable.filter (fun r => r.platform == "googleplay")).take 1 :=
  ⟨(correction_recompute_prefix_sum sampleToday sampleTable sampleCorrections
      "googleplay" sampleCorrected none (by decide)).1,
   (correction_recompute_prefix_sum sampleToday sampleTable sampleCorrections
      "googleplay" sampleCorrected none (by decide)).2 1 (by decide) (by decide)⟩

/-- C2 (code bug): `correct_history_rows` returns `None` on every path — the
source computes `updated_totals` on the corrected path but ends without a
`return` statement, contradicting its own docstring ("Returns: Dict with
updated cumulative totals ... or None if no corrections were needed").
Consequently the orchestrator's `if corrected:` branch never runs and the
cumulative-totals cache is never overwritten with recomputed totals. At the
concrete failing input the table is rewritten (a correction was applied) and
yet the returned value is still `None`. -/
theorem corrections_return_value_always_none :
    (∀ (today : PDate) (table : List Row) (corrections : List StoreResult),
      (correct_history_rows today table corrections).2 = none)
    ∧ correct_history_rows sampleToday sampleTable sampleCorrections
        = (some sampleCorrected, none)
    ∧ sampleCorrected ≠ sampleTable := by
  refine ⟨?_, by decide, by decide⟩
  intro today table corrections
  rw [correct_history_rows_eq]
  split_ifs <;> rfl

/-- Counterexample for C3: `save_to_history` does not compute
`previous_cumulative_total_for_platform + daily_downloads`. On an empty ledger
(previous total 0) with daily 5, the claim predicts a stored
`cumulative_total` of 5, but the code stores the caller-supplied cumulative
dict's value (here 999) verbatim. -/
theorem append_cumulative_cex :
    rows_to_write ⟨2026, 2, 16⟩ ⟨some 999, some 0, none, none⟩ []
        [⟨"App Store", some 5, none, some "2026-02-10", none⟩]
      = [⟨"2026-02-16", "2026-02-10", "appstore", 5, 999⟩]
    ∧ (999 : Int) ≠ 0 + 5 := by
  decide

/-- C3 as amended: every row appended by `save_to_history` stores as
`cumulative_total` the value held in the caller-supplied cumulative dict under
the platform's key (`"apple"` for appstore, `"google_play"` otherwise,
default 0) — not the previous stored total plus the daily value. -/
theorem append_cumulative_from_cache_dict (today : PDate) (c : CumCache)
    (existing : List (String × String)) (results : List StoreResult) :
    ∀ r ∈ rows_to_write today c existing results,
      r.cumulative_total
        = (if r.platform = "appstore" then c.apple.getD 0 else c.google_play.getD 0) := by
  induction results with
  | nil => intro r hr; cases hr
  | cons res rest ih =>
    intro r hr
    unfold rows_to_write at hr
    cases hdd : res.daily_downloads with
    | none => simp only [hdd] at hr; exact ih r hr
    | some dd =>
      simp only [hdd] at hr
      cases hpm : PLATFORM_MAP res.store_name with
      | none => simp only [hpm] at hr; exact ih r hr
      | some platform =>
        simp only [hpm] at hr
        cases hrd : dataDateOf today res.data_date with
        | none => simp only [hrd] at hr; exact ih r hr
        | some report_date =>
          simp only [hrd] at hr
          by_cases hmem : (report_date, platform) ∈ existing
          · simp only [if_pos hmem] at hr; exact ih r hr
          · simp only [if_neg hmem] at hr
            cases hr with
            | tail _ h => exact ih r h
            | head => rfl

/-- Witness for the amended C3: the appended row in the counterexample
scenario carries exactly the cache dict's `apple` value. -/
theorem append_cumulative_from_cache_dict_witness :
    (⟨"2026-02-16", "2026-02-10", "appstore", 5, 999⟩ : Row).cumulative_total
      = (if (⟨"2026-02-16", "2026-02-10", "appstore", 5, 999⟩ : Row).platform = "appstore"
         then (some (999 : Int)).getD 0 else (some (0 : Int)).getD 0) :=
  append_cumulative_from_cache_dict ⟨2026, 2, 16⟩ ⟨some 999, some 0, none, none⟩ []
    [⟨"App Store", some 5, none, some "2026-02-10", none⟩]
    ⟨"2026-02-16", "2026-02-10", "appstore", 5, 999⟩ (by decide)

/-- C4: ledger append is idempotent. If a valid input (mapped platform,
present daily value, parseable data date) whose key is not yet stored is
appended twice — with any cumulative dicts — the second call is a no-op, so
exactly one row with that `(report_date, platform)` key is stored and its
`cumulative_total` is unchanged by the second call. -/
theorem append_idempotent (today : PDate) (c c' : CumCache) (res : StoreResult)
    (table : List Row) (p rd : String) (d : Int)
    (hp : PLATFORM_MAP res.store_name = some p)
    (hd : res.daily_downloads = some d)
    (hr : dataDateOf today res.data_date = some rd)
    (hk : (rd, p) ∉ keysOf table) :
    save_to_history today [res] c' (save_to_history today [res] c table)
        = save_to_history today [res] c table
    ∧ ((save_to_history today [res] c table).filter
        (fun row => row.report_date == rd && row.platform == p)).length = 1 := by
  have hrow : rows_to_write today c (keysOf table) [res]
      = [⟨toIso today, rd, p, d,
          if p = "appstore" then c.apple.getD 0 else c.google_play.getD 0⟩] := by
    unfold rows_to_write
    simp only [hd, hp, hr, if_neg hk]
    rfl
  have ht1 : save_to_history today [res] c table
      = table ++ [⟨toIso today, rd, p, d,
          if p = "appstore" then c.apple.getD 0 else c.google_play.getD 0⟩] := by
    unfold save_to_history
    rw [hrow]
  constructor
  · have hmem : (rd, p) ∈ keysOf (save_to_history today [res] c table) := by
      rw [ht1]
      simp [keysOf]
    have h2 : rows_to_write today c' (keysOf (save_to_history today [res] c table)) [res]
        = [] := by
      unfold rows_to_write
      simp only [hd, hp, hr, if_pos hmem]
      rfl
    show save_to_history today [res] c' (save_to_history today [res] c table)
        = save_to_history today [res] c table
    unfold save_to_history
    rw [show keysOf (table ++ rows_to_write today c (keysOf table) [res])
          = keysOf (save_to_history today [res] c table) from rfl, h2,
        List.append_nil]
  · rw [ht1, List.filter_append]
    have htab : table.filter (fun row => row.report_date == rd && row.platform == p) = [] := by
      rw [List.filter_eq_nil_iff]
      intro row hrow'
      intro hb
      apply hk
      have hb' : row.report_date = rd ∧ row.platform = p := by
        simpa [Bool.and_eq_true, beq_iff_eq] using hb
      have : (rd, p) = (row.report_date, row.platform) := by rw [hb'.1, hb'.2]
      rw [this]
      exact List.mem_map_of_mem (fun r => (r.report_date, r.platform)) hrow'
    rw [htab]
    simp

/-- Witness for C4 on a concrete valid input over an empty ledger. -/
theorem append_idempotent_witness :
    save_to_history ⟨2026, 2, 16⟩ [⟨"App Store", some 5, none, some "2026-02-10", none⟩]
        ⟨some 999, none, none, none⟩
        (save_to_history ⟨2026, 2, 16⟩ [⟨"App Store", some 5, none, some "2026-02-10", none⟩]
          ⟨some 999, none, none, none⟩ [])
      = save_to_history ⟨2026, 2, 16⟩ [⟨"App Store", some 5, none, some "2026-02-10", none⟩]
          ⟨some 999, none, none, none⟩ []
    ∧ ((save_to_history ⟨2026, 2, 16⟩ [⟨"App Store", some 5, none, some "2026-02-10", none⟩]
          ⟨some 999, none, none, none⟩ []).filter
        (fun row => row.report_date == "2026-02-10" && row.platform == "appstore")).length = 1 :=
  append_idempotent ⟨2026, 2, 16⟩ ⟨some 999, none, none, none⟩ ⟨some 999, none, none, none⟩
    ⟨"App Store", some 5, none, some "2026-02-10", none⟩ [] "appstore" "2026-02-10" 5
    (by decide) rfl (by decide) (by decide)

/-- The function `_is_newer_date`, rephrased as the claim states it: true exactly when no
last label is stored (absent or empty), or both labels parse and the fetched
date is strictly after the last one, or a parse failed and the labels are
unequal. -/
theorem is_newer_date_eq (today : PDate) (fetched last : Option String) :
    is_newer_date today fetched last
      = ((last == none || last == some "")
         || match parse_short_date today fetched, parse_short_date today last with
            | some f, some l => decide (toOrdinal f > toOrdinal l)
            | _, _ => fetched != last) := by
  unfold is_newer_date
  cases last with
  | none => simp
  | some s =>
    by_cases hs : s = ""
    · subst hs; simp
    · rw [if_neg (by simpa using hs)]
      have h1 : ((some s : Option String) == none) = false := by simp
      have h2 : ((some s : Option String) == some "") = false := by simpa using hs
      rw [h1, h2]
      simp only [Bool.false_or]

/-- C5: for a fetch result carrying a daily value, the running total advances
by exactly that value (and the stored label becomes the fetched one) precisely
under the claimed condition — no last label stored (absent or empty), or both
labels resolving with the fetched date strictly later, or a parse failure on
either side with unequal label strings; a result with no daily value, or one
whose (non-empty) data date label equals the stored last label, leaves the
total and label unchanged. -/
theorem new_day_advance_iff (today : PDate) (name : String) (d : Int)
    (td : Option Int) (dd em : Option String)
    (total : Option Int) (lastLabel : Option String) :
    new_day_update today ⟨name, some d, td, dd, em⟩ total lastLabel
      = (if (lastLabel == none || lastLabel == some "")
            || (match parse_short_date today dd, parse_short_date today lastLabel with
                | some f, some l => decide (toOrdinal f > toOrdinal l)
                | _, _ => dd != lastLabel)
         then (some (total.getD 0 + d), dd) else (total, lastLabel))
    ∧ new_day_update today ⟨name, none, td, dd, em⟩ total lastLabel = (total, lastLabel)
    ∧ ∀ s : String, s ≠ "" → dd = some s → lastLabel = some s →
        new_day_update today ⟨name, some d, td, dd, em⟩ total lastLabel
          = (total, lastLabel) := by
  refine ⟨?_, rfl, ?_⟩
  · show (if is_newer_date today dd lastLabel
        then (some (total.getD 0 + d), dd) else (total, lastLabel)) = _
    rw [is_newer_date_eq]
  · intro s hs hdd hl
    subst hdd hl
    show (if is_newer_date today (some s) (some s)
        then (some (total.getD 0 + d), some s) else (total, some s)) = _
    have : is_newer_date today (some s) (some s) = false := by
      unfold is_newer_date
      rw [if_neg (by simpa using hs)]
      cases h : parse_short_date today (some s) with
      | none => simp
      | some v => simp
    rw [this]
    rfl

/-- Witness for C5: a repeated `"Feb 14"` label leaves the total unchanged. -/
theorem new_day_advance_iff_witness :
    new_day_update ⟨2026, 2, 16⟩ ⟨"App Store", some 7, none, some "Feb 14", none⟩
        (some 100) (some "Feb 14") = (some 100, some "Feb 14") :=
  (new_day_advance_iff ⟨2026, 2, 16⟩ "App Store" 7 none (some "Feb 14") none
      (some 100) (some "Feb 14")).2.2 "Feb 14" (by decide) rfl rfl

/-- Counterexample for C6: a label of `"Jan 02"` parsed when the current date
is December 30 resolves to January 2 of the CURRENT year (the claim says the
next year). The resolved current-year date is in the past, so the >30-days
forward window never fires, and the rule can only keep the current year or
shift to the previous one — never forward to the next. -/
theorem short_date_dec30_jan02_cex :
    parse_short_date ⟨2025, 12, 30⟩ (some "Jan 02") = some ⟨2025, 1, 2⟩
    ∧ (some (⟨2025, 1, 2⟩ : PDate) : Option PDate) ≠ some ⟨2026, 1, 2⟩ := by
  decide

/-- C6 as amended: `_parse_short_date` resolves a label by assuming the
current year, unless that places the date more than 30 days in the future, in
which case it assumes the previous year; the resolved year is therefore always
the current or the previous year, never the next one. -/
theorem short_date_year_resolution (today : PDate) (s : String) (r : PDate)
    (h : parse_short_date today (some s) = some r) :
    (r.year = today.year
      ∧ ¬ toOrdinal ⟨today.year, r.month, r.day⟩ > toOrdinal today + 30)
    ∨ (r.year = today.year - 1
      ∧ toOrdinal ⟨today.year, r.month, r.day⟩ > toOrdinal today + 30) := by
  simp only [parse_short_date] at h
  by_cases hs : s = ""
  · rw [if_pos hs] at h; cases h
  · rw [if_neg hs] at h
    cases hpm : parseMonthDay (pyStrip (splitParen s)) with
    | none => simp only [hpm] at h; cases h
    | some md =>
      obtain ⟨m, d⟩ := md
      simp only [hpm] at h
      by_cases hfut : toOrdinal ⟨today.year, m, d⟩ > toOrdinal today + 30
      · rw [if_pos hfut] at h
        have hr : r = ⟨today.year - 1, m, d⟩ := (Option.some_inj.1 h).symm
        subst hr
        exact Or.inr ⟨rfl, hfut⟩
      · rw [if_neg hfut] at h
        have hr : r = ⟨today.year, m, d⟩ := (Option.some_inj.1 h).symm
        subst hr
        exact Or.inl ⟨rfl, hfut⟩

/-- Witness for the amended C6 at the claim's own scenario (now = Dec 30,
label = `"Jan 02"`): the current-year branch applies. -/
theorem short_date_year_resolution_witness :
    ((2025 : Nat) = 2025
      ∧ ¬ toOrdinal ⟨2025, 1, 2⟩ > toOrdinal ⟨2025, 12, 30⟩ + 30)
    ∨ ((2025 : Nat) = 2025 - 1
      ∧ toOrdinal ⟨2025, 1, 2⟩ > toOrdinal ⟨2025, 12, 30⟩ + 30) :=
  short_date_year_resolution ⟨2025, 12, 30⟩ "Jan 02" ⟨2025, 1, 2⟩ (by decide)

/-- The apple field after the CSV sync block, by cases on the ledger lookup. -/
theorem sync_apple_eq (c0 : CumCache) (table : List Row) :
    (sync_with_csv c0 table).apple
      = (match latest_per_platform table "appstore" with
         | some r => if r.cumulative_total > c0.apple.getD 0
                     then some r.cumulative_total else c0.apple
         | none => c0.apple) := by
  cases ha : latest_per_platform table "appstore" <;>
    cases hg : latest_per_platform table "googleplay" <;>
      simp only [sync_with_csv, ha, hg] <;> split_ifs <;> rfl

/-- The google_play field after the CSV sync block, by cases on the lookup. -/
theorem sync_google_eq (c0 : CumCache) (table : List Row) :
    (sync_with_csv c0 table).google_play
      = (match latest_per_platform table "googleplay" with
         | some r => if r.cumulative_total > c0.google_play.getD 0
                     then some r.cumulative_total else c0.google_play
         | none => c0.google_play) := by
  cases ha : latest_per_platform table "appstore" <;>
    cases hg : latest_per_platform table "googleplay" <;>
      simp only [sync_with_csv, ha, hg] <;> split_ifs <;> rfl

/-- Counterexample for C7: with the cache file absent,
`load_cumulative_totals` returns hardcoded defaults (apple 440), so after the
load-and-reconcile step a platform whose latest ledger total is 100 holds 440
in memory, not the ledger total the claim promises. -/
theorem absent_cache_defaults_cex :
    (sync_with_csv (load_cumulative_totals none)
        [⟨"2026-02-10", "2026-02-10", "appstore", 5, 100⟩]).apple = some 440
    ∧ (latest_per_platform [⟨"2026-02-10", "2026-02-10", "appstore", 5, 100⟩]
        "appstore").map (fun r => r.cumulative_total) = some 100
    ∧ (some (440 : Int) : Option Int) ≠ some 100 := by
  decide

/-- C7 as amended: an absent cache file loads as the hardcoded defaults
`{apple: 440, google_play: 165, apple_last_date: "Feb 16",
google_play_last_date: "Feb 14"}` (it is not rebuilt from the ledger alone,
and the last-counted labels are stale constants rather than lost); the
reconciled in-memory total per platform is `max(loaded_total, ledger_total)`
— so with the cache present the claim's max rule does hold, and with it
absent the defaults stand in for the cached values; a platform absent from
the ledger keeps its loaded value. -/
theorem cache_reconcile_max (c0 : CumCache) (table : List Row) :
    load_cumulative_totals none
        = ⟨some 440, some 165, some "Feb 16", some "Feb 14"⟩
    ∧ (∀ r, latest_per_platform table "appstore" = some r →
        (sync_with_csv c0 table).apple.getD 0
          = max (c0.apple.getD 0) r.cumulative_total)
    ∧ (latest_per_platform table "appstore" = none →
        (sync_with_csv c0 table).apple = c0.apple)
    ∧ (∀ r, latest_per_platform table "googleplay" = some r →
        (sync_with_csv c0 table).google_play.getD 0
          = max (c0.google_play.getD 0) r.cumulative_total)
    ∧ (latest_per_platform table "googleplay" = none →
        (sync_with_csv c0 table).google_play = c0.google_play) := by
  refine ⟨rfl, ?_, ?_, ?_, ?_⟩
  · intro r hr
    rw [sync_apple_eq]
    simp only [hr]
    by_cases hc : r.cumulative_total > c0.apple.getD 0
    · rw [if_pos hc, max_eq_right (le_of_lt hc)]
      rfl
    · rw [if_neg hc, max_eq_left (not_lt.1 hc)]
  · intro h; rw [sync_apple_eq]; simp only [h]
  · intro r hr
    rw [sync_google_eq]
    simp only [hr]
    by_cases hc : r.cumulative_total > c0.google_play.getD 0
    · rw [if_pos hc, max_eq_right (le_of_lt hc)]
      rfl
    · rw [if_neg hc, max_eq_left (not_lt.1 hc)]
  · intro h; rw [sync_google_eq]; simp only [h]

/-- Witness for the amended C7: a present cache with apple 50 against a
ledger whose latest appstore total is 100 reconciles to max 50 100. -/
theorem cache_reconcile_max_witness :
    (sync_with_csv ⟨some 50, none, none, none⟩
        [⟨"2026-02-10", "2026-02-10", "appstore", 5, 100⟩]).apple.getD 0
      = max ((⟨some 50, none, none, none⟩ : CumCache).apple.getD 0)
          (⟨"2026-02-10", "2026-02-10", "appstore", 5, 100⟩ : Row).cumulative_total :=
  (cache_reconcile_max ⟨some 50, none, none, none⟩
      [⟨"2026-02-10", "2026-02-10", "appstore", 5, 100⟩]).2.1
    ⟨"2026-02-10", "2026-02-10", "appstore", 5, 100⟩ (by decide)

/-- Counterexample for C8: the two parsers are NOT equivalent. For a label one
day in the future (`"Feb 15"` seen on Feb 14), `_parse_data_date`
(history.py) shifts to the previous year the moment the date is strictly in
the future, while `_parse_short_date` (main.py) keeps the current year up to
30 days ahead — so the ledger key and new-day detection denote different
calendar dates, a year apart. -/
theorem parsers_disagree_cex :
    parse_data_date ⟨2026, 2, 14⟩ "Feb 15" = some "2025-02-15"
    ∧ (parse_short_date ⟨2026, 2, 14⟩ (some "Feb 15")).map toIso = some "2026-02-15"
    ∧ ("2025-02-15" : String) ≠ "2026-02-15" := by
  decide

/-- C8 as amended: the parsers agree only outside their divergence window.
For a non-empty label with no parenthesised suffix that parses as `"%b %d"`
and whose current-year resolution is not strictly in the future, both parsers
resolve it to the same current-year date (history.py additionally accepts
`YYYY-MM-DD` labels and does not strip suffixes, and the two differ on
current-year dates 1..30 days ahead: history.py shifts those to the previous
year, main.py keeps the current year, as the counterexample shows). -/
theorem parsers_agree_on_past_labels (today : PDate) (s : String) (m d : Nat)
    (h1 : parseMonthDay (pyStrip s) = some (m, d))
    (h2 : splitParen s = s)
    (h3 : s ≠ "")
    (h4 : ¬ toOrdinal ⟨today.year, m, d⟩ > toOrdinal today) :
    parse_data_date today s = some (toIso ⟨today.year, m, d⟩)
    ∧ parse_short_date today (some s) = some ⟨today.year, m, d⟩ := by
  constructor
  · simp only [parse_data_date, if_neg h3, h1]
    rw [if_neg h4]
  · simp only [parse_short_date, if_neg h3, h2, h1]
    have h4' : ¬ toOrdinal ⟨today.year, m, d⟩ > toOrdinal today + 30 := by omega
    rw [if_neg h4']

/-- Witness for the amended C8: `"Feb 10"` seen on Feb 14 resolves to the same
date in both parsers. -/
theorem parsers_agree_on_past_labels_witness :
    parse_data_date ⟨2026, 2, 14⟩ "Feb 10" = some (toIso ⟨2026, 2, 10⟩)
    ∧ parse_short_date ⟨2026, 2, 14⟩ (some "Feb 10") = some ⟨2026, 2, 10⟩ :=
  parsers_agree_on_past_labels ⟨2026, 2, 14⟩ "Feb 10" 2 10
    (by decide) (by decide) (by decide) (by decide)

/-- C9: a notification failure after the internal retry (at most two attempts,
one retry after a single fixed 60-second pause) makes the run exit non-zero
(1, via `sys.exit(1)`), while the final ledger table and the persisted
cumulative-totals cache are exactly those of a successful-send run — every
data-layer write happens before the send and is unaffected by its outcome. -/
theorem notification_failure_semantics (today : PDate) (cacheFile : Option CumCache)
    (table0 : List Row) (apple_res google_res : StoreResult)
    (recent_gp : List StoreResult) :
    (main_run today cacheFile table0 apple_res google_res recent_gp false false).exitCode = 1
    ∧ (main_run today cacheFile table0 apple_res google_res recent_gp false true).exitCode = 0
    ∧ (main_run today cacheFile table0 apple_res google_res recent_gp false false).table
        = (main_run today cacheFile table0 apple_res google_res recent_gp false true).table
    ∧ (main_run today cacheFile table0 apple_res google_res recent_gp false false).cache
        = (main_run today cacheFile table0 apple_res google_res recent_gp false true).cache
    ∧ send_telegram_message false false = (false, 2, [60])
    ∧ (∀ a1 a2 : Bool, (send_telegram_message a1 a2).2.1 ≤ 2
        ∧ ((send_telegram_message a1 a2).2.2 = [] ∨ (send_telegram_message a1 a2).2.2 = [60])) :=
  ⟨rfl, rfl, rfl, rfl, rfl, by decide⟩


theorem daysInMonth_le31 (y m : Nat) : daysInMonth y m ≤ 31 := by
  unfold daysInMonth
  split_ifs <;> omega

theorem parseMonthDay_bounds (s : String) (m d : Nat)
    (h : parseMonthDay s = some (m, d)) :
    (1 ≤ m ∧ m ≤ 12) ∧ (1 ≤ d ∧ d ≤ 31) := by
  unfold parseMonthDay at h
  split at h
  case h_2 => exact Option.noConfusion h
  case h_1 m1 m2 m3 rest heq =>
    cases hf : monthAbbrevs.find?
        (fun e => e.1.data = [m1.toLower, m2.toLower, m3.toLower]) with
    | none => simp only [hf] at h; exact Option.noConfusion h
    | some e =>
      obtain ⟨nm, month⟩ := e
      simp only [hf] at h
      split_ifs at h with hsp hdig hlen hval
      have hpair := Option.some_inj.1 h
      have hm : month = m := congrArg Prod.fst hpair
      have hd : digitsToNat ((rest.dropWhile isSpaceCh).takeWhile isDigitCh) = d :=
        congrArg Prod.snd hpair
      have hmem := List.mem_of_find?_eq_some hf
      have hmset : month = 1 ∨ month = 2 ∨ month = 3 ∨ month = 4 ∨ month = 5
          ∨ month = 6 ∨ month = 7 ∨ month = 8 ∨ month = 9 ∨ month = 10
          ∨ month = 11 ∨ month = 12 := by
        simp only [monthAbbrevs, List.mem_cons, List.not_mem_nil, or_false,
          Prod.mk.injEq] at hmem
        rcases hmem with hx|hx|hx|hx|hx|hx|hx|hx|hx|hx|hx|hx <;> simp [hx.2]
      rw [← hm, ← hd]
      exact ⟨by omega, hval.1, hval.2.1⟩

theorem parseIso_bounds (s : String) (pd : PDate)
    (h : parseIso s = some pd) :
    (1 ≤ pd.month ∧ pd.month ≤ 12) ∧ (1 ≤ pd.day ∧ pd.day ≤ 31) := by
  unfold parseIso at h
  split at h
  case h_2 => exact Option.noConfusion h
  case h_1 y1 y2 y3 y4 h1 mo1 mo2 h2 d1 d2 =>
    split_ifs at h with hb hv
    have hpd := (Option.some_inj.1 h).symm
    subst hpd
    exact ⟨⟨hv.2.1, hv.2.2.1⟩, hv.2.2.2.1,
      le_trans hv.2.2.2.2 (daysInMonth_le31 _ _)⟩


theorem parse_data_date_shape (today : PDate) (s iso : String)
    (h : parse_data_date today s = some iso) :
    ∃ pd : PDate, (1 ≤ pd.month ∧ pd.month ≤ 12) ∧ (1 ≤ pd.day ∧ pd.day ≤ 31)
      ∧ iso = toIso pd := by
  simp only [parse_data_date] at h
  by_cases hs : s = ""
  · rw [if_pos hs] at h; cases h
  · rw [if_neg hs] at h
    cases hpm : parseMonthDay (pyStrip s) with
    | some md =>
      obtain ⟨m, d⟩ := md
      simp only [hpm] at h
      obtain ⟨hm, hd⟩ := parseMonthDay_bounds _ _ _ hpm
      by_cases hfut : toOrdinal ⟨today.year, m, d⟩ > toOrdinal today
      · rw [if_pos hfut] at h
        exact ⟨⟨today.year - 1, m, d⟩, hm, hd, (Option.some_inj.1 h).symm⟩
      · rw [if_neg hfut] at h
        exact ⟨⟨today.year, m, d⟩, hm, hd, (Option.some_inj.1 h).symm⟩
    | none =>
      simp only [hpm] at h
      cases hpi : parseIso (pyStrip s) with
      | none => rw [hpi] at h; cases h
      | some pd =>
        rw [hpi] at h
        obtain ⟨hm, hd⟩ := parseIso_bounds _ _ hpi
        exact ⟨pd, hm, hd, (Option.some_inj.1 h).symm⟩

/-- C10: `save_to_history` drops invalid inputs silently and still processes
the rest. Every row it ever writes has a known lowercase platform token
(`"appstore"` or `"googleplay"`) and a `report_date` of ISO `YYYY-MM-DD`
shape (the rendering of a month 1..12 / day 1..31 date); and a result with no
daily value, an unmapped store name, or an unparseable data date contributes
no row while the remaining results are processed unchanged. -/
theorem append_drops_invalid_inputs (today : PDate) (c : CumCache)
    (existing : List (String × String)) :
    (∀ (results : List StoreResult), ∀ r ∈ rows_to_write today c existing results,
        (r.platform = "appstore" ∨ r.platform = "googleplay")
        ∧ ∃ pd : PDate, (1 ≤ pd.month ∧ pd.month ≤ 12) ∧ (1 ≤ pd.day ∧ pd.day ≤ 31)
            ∧ r.report_date = toIso pd)
    ∧ (∀ (res : StoreResult) (rest : List StoreResult),
        res.daily_downloads = none ∨ PLATFORM_MAP res.store_name = none
          ∨ dataDateOf today res.data_date = none →
        rows_to_write today c existing (res :: rest)
          = rows_to_write today c existing rest) := by
  constructor
  · intro results
    induction results with
    | nil => intro r hr; cases hr
    | cons res rest ih =>
      intro r hr
      unfold rows_to_write at hr
      cases hdd : res.daily_downloads with
      | none => simp only [hdd] at hr; exact ih r hr
      | some dd =>
        simp only [hdd] at hr
        cases hpm : PLATFORM_MAP res.store_name with
        | none => simp only [hpm] at hr; exact ih r hr
        | some platform =>
          simp only [hpm] at hr
          cases hrd : dataDateOf today res.data_date with
          | none => simp only [hrd] at hr; exact ih r hr
          | some report_date =>
            simp only [hrd] at hr
            by_cases hmem : (report_date, platform) ∈ existing
            · simp only [if_pos hmem] at hr; exact ih r hr
            · simp only [if_neg hmem] at hr
              cases hr with
              | tail _ hx => exact ih r hx
              | head =>
                constructor
                · unfold PLATFORM_MAP at hpm
                  split_ifs at hpm
                  · exact Or.inl (Option.some_inj.1 hpm).symm
                  · exact Or.inr (Option.some_inj.1 hpm).symm
                · unfold dataDateOf at hrd
                  cases hds : res.data_date with
                  | none => simp only [hds] at hrd; exact Option.noConfusion hrd
                  | some s =>
                    simp only [hds] at hrd
                    by_cases hse : s = ""
                    · rw [if_pos hse] at hrd; cases hrd
                    · rw [if_neg hse] at hrd
                      exact parse_data_date_shape today s report_date hrd
  · intro res rest hbad
    cases hdd : res.daily_downloads with
    | none => simp only [rows_to_write, hdd]
    | some dd =>
      rcases hbad with hb | hb | hb
      · rw [hdd] at hb; cases hb
      · simp only [rows_to_write, hdd, hb]
      · cases hpm : PLATFORM_MAP res.store_name with
        | none => simp only [rows_to_write, hdd, hpm]
        | some platform => simp only [rows_to_write, hdd, hpm, hb]

/-- Witness for C10: a valid App Store result over an empty ledger yields a
row with the `appstore` token and an ISO-shaped `report_date`, and a result
with no daily value is dropped. -/
theorem append_drops_invalid_inputs_witness :
    (((⟨"2026-02-16", "2026-02-10", "appstore", 5, 0⟩ : Row).platform = "appstore"
        ∨ (⟨"2026-02-16", "2026-02-10", "appstore", 5, 0⟩ : Row).platform = "googleplay")
      ∧ ∃ pd : PDate, (1 ≤ pd.month ∧ pd.month ≤ 12) ∧ (1 ≤ pd.day ∧ pd.day ≤ 31)
          ∧ (⟨"2026-02-16", "2026-02-10", "appstore", 5, 0⟩ : Row).report_date = toIso pd)
    ∧ rows_to_write ⟨2026, 2, 16⟩ ⟨none, none, none, none⟩ []
          [⟨"App Store", none, none, some "Feb 10", none⟩]
        = rows_to_write ⟨2026, 2, 16⟩ ⟨none, none, none, none⟩ [] [] :=
  ⟨(append_drops_invalid_inputs ⟨2026, 2, 16⟩ ⟨none, none, none, none⟩ []).1
      [⟨"App Store", some 5, none, some "2026-02-10", none⟩]
      ⟨"2026-02-16", "2026-02-10", "appstore", 5, 0⟩ (by decide),
   (append_drops_invalid_inputs ⟨2026, 2, 16⟩ ⟨none, none, none, none⟩ []).2
      ⟨"App Store", none, none, some "Feb 10", none⟩ [] (Or.inl rfl)⟩
